/-
Verification development for the VaDER FT-991A controller.

Shallow embedding of src/ft991a_cat.py (Yaesu991AControl) and of the
scanner / polling logic in src/main.py (RadioGUI).  Python strings are
modelled as `List Char`, Python integers as `ℤ` / `ℕ`, and decimal inputs
(the `Decimal(str(mhz))` values of `set_frequency`) as an integer mantissa
together with a base-ten exponent, so that `Decimal` arithmetic is exact.
Serial responses are `Option (List Char)` — `none` models `_execute`
returning `None` (disconnected / timeout), `some l` a stripped reply.
-/
import Mathlib

namespace VaDER

/-- The character for digit `d % 10` (Python formats digits in ASCII). -/
def digitChar (d : ℕ) : Char := Char.ofNat (48 + d % 10)

/-- Fuel-driven base-ten digit expansion, most significant digit first;
`fuel > n` always suffices. -/
def natDigitsGo : ℕ → ℕ → List Char
  | 0, _ => []
  | fuel + 1, n =>
    if n < 10 then [digitChar n]
    else natDigitsGo fuel (n / 10) ++ [digitChar (n % 10)]

/-- Base-ten digit string of a natural number, as Python renders an `int`. -/
def natDigits (n : ℕ) : List Char := natDigitsGo (n + 1) n

/-- Numeric value of a digit string (what Python `int(s)` yields on digits). -/
def natOfDigits (l : List Char) : ℕ :=
  l.foldl (fun n c => 10 * n + (c.toNat - 48)) 0

/-- Left zero-padding to width `w`, as in Python `%0wd` for a nonnegative
value: a minimum width, never truncation. -/
def pyPad (w : ℕ) (l : List Char) : List Char :=
  List.replicate (w - l.length) '0' ++ l

/-- Python `f"{n:0wd}"` for an integer: sign first, zeros pad the total
width to at least `w`. -/
def pyZFill (w : ℕ) (n : ℤ) : List Char :=
  if n < 0 then '-' :: pyPad (w - 1) (natDigits n.natAbs)
  else pyPad w (natDigits n.toNat)

/-- Python `str.isdigit` on the ASCII fragment: nonempty and all digits. -/
def py_isdigit (l : List Char) : Bool := !l.isEmpty && l.all Char.isDigit

/-- Python `str.strip`: drop leading and trailing whitespace. -/
def pyStrip (l : List Char) : List Char :=
  ((l.dropWhile Char.isWhitespace).reverse.dropWhile Char.isWhitespace).reverse

/-- Python `str.upper` on the ASCII fragment. -/
def pyUpper (l : List Char) : List Char := l.map Char.toUpper

/-- Python slice `l[-n:]`: the last `n` characters (all of them when the
string is shorter than `n`). -/
def lastN (n : ℕ) (l : List Char) : List Char := l.drop (l.length - n)

/-- `Decimal.quantize(Decimal("1"), rounding=ROUND_HALF_UP)` applied to the
exact rational `num / den`: round to the nearest integer, ties away from
zero. -/
def roundHalfUp (num : ℤ) (den : ℕ) : ℤ :=
  (if 0 ≤ num then (1 : ℤ) else -1) * ((2 * num.natAbs + den) / (2 * den) : ℕ)

/-- `Yaesu991AControl.set_frequency` (ft991a_cat.py lines 72-79).  The
decimal input `mhz` is `m / 10 ^ e` megahertz; the code computes
`int((Decimal(str(mhz)) * Decimal("1000000")).quantize(Decimal("1"),
rounding=ROUND_HALF_UP))` and transmits `f"FA{hz:09d}"`.  The result is the
command string handed to `_execute` (terminator excluded, as in the code). -/
def set_frequency (m : ℤ) (e : ℕ) : List Char :=
  ['F', 'A'] ++ pyZFill 9 (roundHalfUp (m * 10 ^ 6) (10 ^ e))

/-- `Yaesu991AControl.get_frequency` (ft991a_cat.py lines 81-89).  The
input is the `_execute("FA", read=True)` result; `none` models `None`.
The trailing Python `float(...)` cast (nearest-double rounding) is not
modelled: the parse and the `Decimal` division are represented exactly
over `ℚ`. -/
def get_frequency (resp : Option (List Char)) : ℚ :=
  match resp with
  | none => 0
  | some l =>
    if l = [] ∨ List.isPrefixOf ['F', 'A'] l = false ∨ l.length ≤ 2 then 0
    else if py_isdigit (l.drop 2) = false then 0
    else (natOfDigits (l.drop 2) : ℚ) / 1000000

/-- The `modes` table of `set_mode` (ft991a_cat.py line 92). -/
def modes : List (List Char × Char) :=
  [(['L', 'S', 'B'], '1'), (['U', 'S', 'B'], '2'), (['C', 'W'], '3'),
   (['F', 'M'], '4'), (['A', 'M'], '5'), (['C', '4', 'F', 'M'], 'E')]

/-- The `code_to_mode` table of `get_mode` (ft991a_cat.py lines 102-106). -/
def code_to_mode : List (Char × List Char) :=
  [('1', ['L', 'S', 'B']), ('2', ['U', 'S', 'B']), ('3', ['C', 'W', '-', 'U']),
   ('4', ['F', 'M']), ('5', ['A', 'M']), ('6', ['R', 'T', 'T', 'Y', '-', 'L']),
   ('7', ['C', 'W', '-', 'L']), ('8', ['D', 'A', 'T', 'A', '-', 'L']),
   ('9', ['R', 'T', 'T', 'Y', '-', 'U']), ('A', ['D', 'A', 'T', 'A', '-', 'F', 'M']),
   ('C', ['D', 'A', 'T', 'A', '-', 'U']), ('E', ['C', '4', 'F', 'M'])]

/-- `Yaesu991AControl.set_mode` (ft991a_cat.py lines 91-95): strip and
upper-case the label, look it up, and return the transmitted command
(`none` when nothing is transmitted; `label = none` models `mode_str` being
`None`, handled by `mode_str or ""`). -/
def set_mode (label : Option (List Char)) : Option (List Char) :=
  match List.lookup (pyUpper (pyStrip (label.getD []))) modes with
  | some c => some (['M', 'D', '0', c])
  | none => none

/-- The fallback in `get_mode` (ft991a_cat.py lines 108-110): use the `MD0`
reply unless it is falsy (`None` or empty), in which case use the `MD`
reply. -/
def firstTruthy (resp1 resp2 : Option (List Char)) : Option (List Char) :=
  match resp1 with
  | none => resp2
  | some l => if l.isEmpty then resp2 else some l

/-- `Yaesu991AControl.get_mode` (ft991a_cat.py lines 97-118): `resp1` is the
`MD0` reply, `resp2` the fallback `MD` reply used when the first is falsy. -/
def get_mode (resp1 resp2 : Option (List Char)) : Option (List Char) :=
  match firstTruthy resp1 resp2 with
  | none => none
  | some l =>
    if l.isEmpty then none
    else if List.isPrefixOf ['M', 'D'] l = true ∧ 4 ≤ l.length then
      match l.getLast? with
      | some c => List.lookup (Char.toUpper c) code_to_mode
      | none => none
    else none

/-- `Yaesu991AControl.get_swr_meter` (ft991a_cat.py lines 120-122):
`int(resp[3:6]) if resp and len(resp) >= 6 and resp[3:6].isdigit() else 0`. -/
def get_swr_meter (resp : Option (List Char)) : ℕ :=
  match resp with
  | none => 0
  | some l =>
    if l ≠ [] ∧ 6 ≤ l.length ∧ py_isdigit ((l.drop 3).take 3) = true then
      natOfDigits ((l.drop 3).take 3)
    else 0

/-- `Yaesu991AControl.get_s_meter` (ft991a_cat.py lines 124-133). -/
def get_s_meter (resp : Option (List Char)) : ℕ :=
  match resp with
  | none => 0
  | some l =>
    if l = [] then 0
    else if List.isPrefixOf ['S', 'M'] l = true ∧ 6 ≤ l.length then
      if py_isdigit (lastN 3 l) = true then natOfDigits (lastN 3 l) else 0
    else 0

/-- `Yaesu991AControl.get_rf_power` (ft991a_cat.py lines 135-144). -/
def get_rf_power (resp : Option (List Char)) : ℕ :=
  match resp with
  | none => 0
  | some l =>
    if l = [] then 0
    else if List.isPrefixOf ['P', 'C'] l = true ∧ 5 ≤ l.length then
      if py_isdigit (lastN 3 l) = true then natOfDigits (lastN 3 l) else 0
    else 0

/-- `Yaesu991AControl._execute` viewed from a getter: while disconnected it
returns `None` without touching the wire; when connected it yields whatever
reply the serial exchange produced (ft991a_cat.py lines 56-70). -/
def executeResp (connected : Bool) (raw : Option (List Char)) : Option (List Char) :=
  if connected then raw else none

/-- The kinds of values a caller can pass to `set_rf_power(level)`.  A
Python `float` argument is represented by its exact rational value (IEEE
special values `inf` / `nan` have no representative here). -/
inductive PowerInput where
  | int (n : ℤ)
  | float (q : ℚ)
  | bool (b : Bool)
  | str (s : List Char)
  | none_
deriving DecidableEq

/-- Truncation toward zero, the behaviour of Python `int()` on a finite
float. -/
def ratTrunc (q : ℚ) : ℤ := if 0 ≤ q then ⌊q⌋ else ⌈q⌉

/-- PEP-515 digit grouping, as accepted by Python `int()` on a string: a
nonempty run of digits in which a single underscore may appear between two
digits — never leading, never trailing, never doubled. -/
def pyGroupedDigits : List Char → Bool
  | [] => false
  | [c] => c.isDigit
  | c :: '_' :: rest => c.isDigit && pyGroupedDigits rest
  | c :: rest => c.isDigit && pyGroupedDigits rest

/-- Remove the PEP-515 grouping underscores before reading the value. -/
def stripUnderscores (l : List Char) : List Char := l.filter (fun c => c != '_')

/-- Python `int(s)` on a string (ASCII fragment): strip whitespace, accept
an optional sign followed by an underscore-grouped run of digits
(PEP 515, e.g. `int("1_0") = 10`), otherwise raise. -/
def parseIntStr (s : List Char) : Option ℤ :=
  match pyStrip s with
  | '+' :: rest =>
    if pyGroupedDigits rest then some ((natOfDigits (stripUnderscores rest) : ℕ) : ℤ)
    else none
  | '-' :: rest =>
    if pyGroupedDigits rest then some (-((natOfDigits (stripUnderscores rest) : ℕ) : ℤ))
    else none
  | t =>
    if pyGroupedDigits t then some ((natOfDigits (stripUnderscores t) : ℕ) : ℤ)
    else none

/-- Python `int(level)` under `except (TypeError, ValueError)`: `none`
means the conversion raised and `set_rf_power` returns `False`. -/
def tryInt : PowerInput → Option ℤ
  | .int n => some n
  | .float q => some (ratTrunc q)
  | .bool b => some (if b then 1 else 0)
  | .str s => parseIntStr s
  | .none_ => none

/-- The `PCxxx` command, `f"PC{level_int:03d}"`. -/
def pcCommand (n : ℤ) : List Char := ['P', 'C'] ++ pyZFill 3 n

/-- `Yaesu991AControl.set_rf_power` (ft991a_cat.py lines 146-155): returns
the Python return value paired with the transmitted command (`none` when
nothing is sent). -/
def set_rf_power (level : PowerInput) : Bool × Option (List Char) :=
  match tryInt level with
  | none => (false, none)
  | some z => (true, some (pcCommand (max 5 (min 100 z))))

/-- A Python float value: finite (with its exact rational value), signed
infinity, or NaN. -/
inductive PyFloat where
  | fin (q : ℚ)
  | inf (neg : Bool)
  | nan
deriving DecidableEq

/-- The completed model of a value passed to `set_rf_power(level)`,
including the non-finite floats that `PowerInput` cannot represent. -/
inductive PyLevel where
  | int (n : ℤ)
  | float (v : PyFloat)
  | bool (b : Bool)
  | str (s : List Char)
  | none_
deriving DecidableEq

/-- Outcome of Python `int(level)`, split by what the
`except (TypeError, ValueError)` clause of `set_rf_power` does with it:
`ok` converts, `caught` raises TypeError or ValueError (handled), and
`uncaught` raises OverflowError (not named in the clause, so it
propagates). -/
inductive IntConv where
  | ok (z : ℤ)
  | caught
  | uncaught
deriving DecidableEq

/-- Python `int(level)` for every `PyLevel`: ints are identity, finite
floats truncate toward zero, `inf`/`-inf` raise OverflowError (uncaught),
`nan` raises ValueError (caught), booleans convert to 0/1, strings parse
per `parseIntStr` or raise ValueError (caught), and `None` raises
TypeError (caught). -/
def intOf : PyLevel → IntConv
  | .int n => .ok n
  | .float (.fin q) => .ok (ratTrunc q)
  | .float (.inf _) => .uncaught
  | .float .nan => .caught
  | .bool b => .ok (if b then 1 else 0)
  | .str s =>
    match parseIntStr s with
    | some z => .ok z
    | none => .caught
  | .none_ => .caught

/-- How a `set_rf_power` call ends: a Python return value together with
the transmitted command, or an uncaught exception propagating (in which
case nothing is transmitted either). -/
inductive RunResult where
  | ret (b : Bool) (sent : Option (List Char))
  | exn
deriving DecidableEq

/-- `Yaesu991AControl.set_rf_power` (ft991a_cat.py lines 146-155) over the
completed value model: refines `set_rf_power` by tracking which exception
class `int()` raises, so the uncaught-OverflowError path at non-finite
floats is representable. -/
def set_rf_power_run (level : PyLevel) : RunResult :=
  match intOf level with
  | .ok z => .ret true (some (pcCommand (max 5 (min 100 z))))
  | .caught => .ret false none
  | .uncaught => .exn

/-- The evident embedding of the finite-value model into the completed
one. -/
def toPyLevel : PowerInput → PyLevel
  | .int n => .int n
  | .float q => .float (.fin q)
  | .bool b => .bool b
  | .str s => .str s
  | .none_ => .none_

/-- A band plan from the `BANDS` table of main.py (lines 13-17).  `stop`
models the `end` key (`end` is reserved in Lean); frequencies are in MHz.
The Python floats are represented by their decimal (nominal) values. -/
structure BandPlan where
  start : ℚ
  stop : ℚ
  step : ℚ
  mode : List Char
deriving DecidableEq

/-- The fixed `BANDS` table of main.py. -/
def BANDS : List (List Char × BandPlan) :=
  [(['2', 'm'], ⟨144, 148, 0.015, ['F', 'M']⟩),
   (['2', '0', 'm'], ⟨14, 14.35, 0.001, ['U', 'S', 'B']⟩),
   (['1', '0', 'm'], ⟨28.3, 29.7, 0.005, ['U', 'S', 'B']⟩)]

/-- What one iteration of `RadioGUI.scan_thread`'s while-loop observes from
the other threads and the rig: the value of `self.scanning and not
self._shutdown.is_set()` at the loop guard, the link liveness check, and
the S-meter reading. -/
structure ScanEnv where
  scanningNow : Bool
  connected : Bool
  sMeter : ℕ
deriving DecidableEq

/-- The externally visible actions of `scan_thread`: CAT frequency
commands, log records, and UI-queue events (main.py lines 484-529). -/
inductive Event where
  | setFreq (f : ℚ)
  | logged (f : ℚ) (s : ℕ)
  | statusDisconnected
  | statusError
  | pttEnabled (b : Bool)
deriving DecidableEq

/-- The clamp at the top of each `scan_thread` iteration (main.py lines
511-512, also applied before the loop at lines 502-504): reset to
`band.start` whenever the current frequency falls outside
`[start, end]`. -/
def clampF (plan : BandPlan) (f : ℚ) : ℚ :=
  if f < plan.start ∨ plan.stop < f then plan.start else f

/-- The body of `RadioGUI.scan_thread`'s while-loop (main.py lines
506-529), one `ScanEnv` per iteration; exhausting the list models the
guard turning false.  Every exit falls through to `self.scanning = False`
followed by `("ptt_state", True)` (lines 528-529); a dead link emits the
disconnected status and breaks (lines 507-509). -/
def scanLoop (plan : BandPlan) (thresh : ℕ) : ℚ → List ScanEnv → List Event
  | _, [] => [Event.pttEnabled true]
  | f, e :: rest =>
    if e.scanningNow = false then [Event.pttEnabled true]
    else if e.connected = false then [Event.statusDisconnected, Event.pttEnabled true]
    else
      Event.setFreq (clampF plan f) ::
        (if thresh ≤ e.sMeter then
          Event.logged (clampF plan f) e.sMeter ::
            scanLoop plan thresh (clampF plan f + plan.step) rest
        else scanLoop plan thresh (clampF plan f + plan.step) rest)

/-- `RadioGUI.scan_thread` (main.py lines 484-529): `plan?` is
`BANDS.get(band)`, `f0` the initial `get_frequency()` reading.  The
invalid-plan and invalid-step aborts emit `ptt_state True` and then the
error status, in the code's order (lines 487-489 and 496-499). -/
def scan_thread (plan? : Option BandPlan) (thresh : ℕ) (f0 : ℚ)
    (envs : List ScanEnv) : List Event :=
  match plan? with
  | none => [Event.pttEnabled true, Event.statusError]
  | some plan =>
    if plan.step ≤ 0 then [Event.pttEnabled true, Event.statusError]
    else scanLoop plan thresh (clampF plan f0) envs

/-- A CAT command on the serial link, labelled with the thread that issued
it. -/
inductive Cmd where
  | pollCmd
  | scanCmd
deriving DecidableEq

/-- Joint state of the polling thread, the scanner, and the shared
`self.scanning` boolean of `RadioGUI`.  `pollReady` records that
`radio_poll_thread` has evaluated `if self.scanning:` (main.py line 348) as
false and is about to issue its CAT reads; `wire` is the sequence of whole
commands issued on the link, in order. -/
structure RaceState where
  scanning : Bool
  scanActive : Bool
  pollReady : Bool
  wire : List Cmd

/-- Interleaving semantics of the unguarded `self.scanning` boolean.
`pollObserve` is the read at main.py line 348; `pollIssue` the subsequent
CAT reads (lines 357-370), issued with no further guard; `uiStartScan` is
`toggle_scan` setting `self.scanning = True` and spawning `scan_thread`
(lines 474-478); `scanIssue` is `scan_thread` commanding the rig
(line 514). -/
inductive RaceStep : RaceState → RaceState → Prop
  | pollObserve (s : RaceState) (h : s.scanning = false) :
      RaceStep s { s with pollReady := true }
  | pollIssue (s : RaceState) (h : s.pollReady = true) :
      RaceStep s { s with pollReady := false, wire := s.wire ++ [Cmd.pollCmd] }
  | uiStartScan (s : RaceState) (h : s.scanning = false) :
      RaceStep s { s with scanning := true, scanActive := true }
  | scanIssue (s : RaceState) (h1 : s.scanActive = true) (h2 : s.scanning = true) :
      RaceStep s { s with wire := s.wire ++ [Cmd.scanCmd] }

/-- Initial state: not scanning, no scan thread, poll thread at the top of
its loop, nothing on the wire. -/
def RaceInit : RaceState := ⟨false, false, false, []⟩

/-! ### Decimal-digit infrastructure lemmas -/

lemma toNat_digitChar (d : ℕ) : (digitChar d).toNat = 48 + d % 10 := by
  have h : d % 10 < 10 := Nat.mod_lt _ (by norm_num)
  unfold digitChar
  set k := d % 10 with hk
  interval_cases k <;> decide

lemma isDigit_digitChar (d : ℕ) : (digitChar d).isDigit = true := by
  have h : d % 10 < 10 := Nat.mod_lt _ (by norm_num)
  unfold digitChar
  set k := d % 10 with hk
  interval_cases k <;> decide

lemma natOfDigits_append_single (l : List Char) (c : Char) :
    natOfDigits (l ++ [c]) = 10 * natOfDigits l + (c.toNat - 48) := by
  simp [natOfDigits, List.foldl_append]

lemma natOfDigits_replicate_zero (k : ℕ) (l : List Char) :
    natOfDigits (List.replicate k '0' ++ l) = natOfDigits l := by
  have aux : ∀ m : ℕ,
      List.foldl (fun n c => 10 * n + (c.toNat - 48)) 0 (List.replicate m '0') = 0 := by
    intro m
    induction m with
    | zero => rfl
    | succ m ih => simpa [List.replicate_succ] using ih
  simp [natOfDigits, List.foldl_append, aux]

lemma natDigitsGo_value : ∀ f n : ℕ, n < f → natOfDigits (natDigitsGo f n) = n := by
  intro f
  induction f with
  | zero => intro n h; omega
  | succ f ih =>
    intro n h
    rw [natDigitsGo]
    by_cases h10 : n < 10
    · have hmod : n % 10 = n := Nat.mod_eq_of_lt h10
      simp [h10, natOfDigits, toNat_digitChar, hmod]
    · have hpos : 0 < n := by omega
      have hrec : n / 10 < f := by
        have := Nat.div_lt_self hpos (by norm_num : 1 < 10)
        omega
      rw [if_neg h10, natOfDigits_append_single, ih _ hrec, toNat_digitChar]
      omega

lemma natDigitsGo_all : ∀ f n : ℕ, n < f →
    (natDigitsGo f n).all Char.isDigit = true := by
  intro f
  induction f with
  | zero => intro n h; omega
  | succ f ih =>
    intro n h
    rw [natDigitsGo]
    by_cases h10 : n < 10
    · simp [h10, isDigit_digitChar]
    · have hpos : 0 < n := by omega
      have hrec : n / 10 < f := by
        have := Nat.div_lt_self hpos (by norm_num : 1 < 10)
        omega
      simp [h10, List.all_append, ih _ hrec, isDigit_digitChar]

lemma natDigitsGo_length : ∀ f n k : ℕ, n < f → 1 ≤ k → n < 10 ^ k →
    (natDigitsGo f n).length ≤ k := by
  intro f
  induction f with
  | zero => intro n k h; omega
  | succ f ih =>
    intro n k h hk hn
    rw [natDigitsGo]
    by_cases h10 : n < 10
    · simpa [h10] using hk
    · have hpos : 0 < n := by omega
      have hrec : n / 10 < f := by
        have := Nat.div_lt_self hpos (by norm_num : 1 < 10)
        omega
      obtain ⟨k', rfl⟩ : ∃ k', k = k' + 1 := ⟨k - 1, by omega⟩
      have hk' : 1 ≤ k' := by
        by_contra hcon
        have : k' = 0 := by omega
        subst this
        simp [pow_succ, pow_zero] at hn
        omega
      have hdiv : n / 10 < 10 ^ k' := by
        rw [Nat.div_lt_iff_lt_mul (by norm_num : (0:ℕ) < 10)]
        calc n < 10 ^ (k' + 1) := hn
          _ = 10 ^ k' * 10 := by ring
      have := ih (n / 10) k' hrec hk' hdiv
      simp [h10, List.length_append]
      omega

lemma natDigits_value (n : ℕ) : natOfDigits (natDigits n) = n :=
  natDigitsGo_value (n + 1) n (Nat.lt_succ_self n)

lemma natDigits_all (n : ℕ) : (natDigits n).all Char.isDigit = true :=
  natDigitsGo_all (n + 1) n (Nat.lt_succ_self n)

lemma natDigits_length (n k : ℕ) (hk : 1 ≤ k) (hn : n < 10 ^ k) :
    (natDigits n).length ≤ k :=
  natDigitsGo_length (n + 1) n k (Nat.lt_succ_self n) hk hn

lemma pyPad_length (w : ℕ) (l : List Char) (h : l.length ≤ w) :
    (pyPad w l).length = w := by
  simp [pyPad, List.length_append, List.length_replicate]
  omega

lemma pyPad_all (w : ℕ) (l : List Char) (h : l.all Char.isDigit = true) :
    (pyPad w l).all Char.isDigit = true := by
  simp only [pyPad, List.all_append, Bool.and_eq_true]
  refine ⟨?_, h⟩
  simp only [List.all_eq_true]
  intro c hc
  rw [List.eq_of_mem_replicate hc]
  decide

lemma natOfDigits_pyPad (w : ℕ) (l : List Char) :
    natOfDigits (pyPad w l) = natOfDigits l :=
  natOfDigits_replicate_zero _ _

lemma roundHalfUp_exact (k d : ℕ) (hd : 0 < d) :
    roundHalfUp ((k : ℤ) * d) d = k := by
  unfold roundHalfUp
  have h0 : (0 : ℤ) ≤ (k : ℤ) * d := by positivity
  rw [if_pos h0]
  have habs : ((k : ℤ) * d).natAbs = k * d := by
    simp [Int.natAbs_mul]
  rw [habs]
  have hdivnat : (2 * (k * d) + d) / (2 * d) = k := by
    have h1 : 2 * (k * d) + d = 2 * d * k + d := by ring
    rw [h1, Nat.mul_add_div (by omega : 0 < 2 * d)]
    have : d / (2 * d) = 0 := Nat.div_eq_of_lt (by omega)
    omega
  rw [hdivnat]
  ring

lemma startsWith2_iff (a b : Char) (l : List Char) :
    List.isPrefixOf [a, b] l = true ↔ ∃ t, l = a :: b :: t := by
  match l with
  | [] => simp [List.isPrefixOf]
  | [c] => simp [List.isPrefixOf]
  | c1 :: c2 :: t =>
    constructor
    · intro h
      simp [List.isPrefixOf, Bool.and_eq_true, beq_iff_eq] at h
      exact ⟨t, by rw [h.1, h.2]⟩
    · rintro ⟨t', ht⟩
      obtain ⟨h1, h2, h3⟩ : c1 = a ∧ c2 = b ∧ t = t' := by
        injection ht with ha hrest
        injection hrest with hb ht'
        exact ⟨ha, hb, ht'⟩
      subst h1; subst h2; subst h3
      simp [List.isPrefixOf]

lemma lookup_eq_none_of_not_mem {α β : Type} [BEq α] [LawfulBEq α]
    (a : α) (l : List (α × β)) (h : a ∉ l.map Prod.fst) :
    List.lookup a l = none := by
  induction l with
  | nil => rfl
  | cons hd tl ih =>
    obtain ⟨k, v⟩ := hd
    simp only [List.map_cons, List.mem_cons, not_or] at h
    have hk : (a == k) = false := beq_eq_false_iff_ne.mpr h.1
    simp [List.lookup, hk, ih h.2]

/-! ### Claim theorems -/

/-- C1 (amended): for every nonnegative decimal megahertz input `m / 10^e`
with at most 6 fractional digits whose exact hertz value is below `10^9`,
`set_frequency` encodes the payload as the mathematically round-half-up
(here: exact) integer number of hertz, as a fixed 9-digit zero-padded
decimal after the opcode prefix `FA`; for inputs of 1000 MHz and above the
zero-padding is only a minimum width and the payload exceeds 9 digits. -/
theorem set_frequency_exact_encoding (m e : ℕ) (he : e ≤ 6)
    (hr : m * 10 ^ (6 - e) < 10 ^ 9) :
    ∃ payload : List Char,
      set_frequency ((m : ℕ) : ℤ) e = ['F', 'A'] ++ payload
      ∧ payload.length = 9
      ∧ payload.all Char.isDigit = true
      ∧ natOfDigits payload = m * 10 ^ (6 - e) := by
  have h6 : 6 - e + e = 6 := by omega
  have hsplit : ((m : ℕ) : ℤ) * 10 ^ 6 =
      ((m * 10 ^ (6 - e) : ℕ) : ℤ) * ((10 ^ e : ℕ) : ℤ) := by
    push_cast
    rw [mul_assoc, ← pow_add, h6]
    norm_num
  have hround : roundHalfUp (((m : ℕ) : ℤ) * 10 ^ 6) (10 ^ e) =
      ((m * 10 ^ (6 - e) : ℕ) : ℤ) := by
    rw [hsplit]
    exact roundHalfUp_exact _ _ (by positivity)
  refine ⟨pyPad 9 (natDigits (m * 10 ^ (6 - e))), ?_, ?_, ?_, ?_⟩
  · rw [set_frequency, hround, pyZFill,
      if_neg (not_lt.mpr (Int.natCast_nonneg _)), Int.toNat_natCast]
  · exact pyPad_length _ _ (natDigits_length _ 9 (by norm_num) hr)
  · exact pyPad_all _ _ (natDigits_all _)
  · rw [natOfDigits_pyPad, natDigits_value]

/-- C1 witness: the input 14.0 MHz (mantissa 14, exponent 0) encodes as
`FA014000000`, exactly as the spec's example demands. -/
theorem set_frequency_exact_encoding_witness :
    (∃ payload : List Char,
      set_frequency ((14 : ℕ) : ℤ) 0 = ['F', 'A'] ++ payload
      ∧ payload.length = 9
      ∧ payload.all Char.isDigit = true
      ∧ natOfDigits payload = 14 * 10 ^ (6 - 0))
    ∧ set_frequency ((14 : ℕ) : ℤ) 0 =
        ['F', 'A', '0', '1', '4', '0', '0', '0', '0', '0', '0'] :=
  ⟨set_frequency_exact_encoding 14 0 (by norm_num) (by norm_num), by decide⟩

/-- C1 counterexample: 1000.0 MHz is a decimal megahertz input with 0
fractional digits, but its payload `f"{10 ** 9:09d}"` has ten digits —
the `09d` width is only a minimum, so the "fixed 9-digit zero-padded
decimal" part of the claim fails at this input. -/
theorem set_frequency_payload_ten_digits :
    set_frequency ((1000 : ℕ) : ℤ) 0 =
      ['F', 'A', '1', '0', '0', '0', '0', '0', '0', '0', '0', '0']
    ∧ ((set_frequency ((1000 : ℕ) : ℤ) 0).drop 2).length = 10 := by
  constructor <;> decide

/-- C4: `get_frequency` yields exactly the digit payload divided by
1,000,000 on a well-formed `FA`-prefixed all-digit response, and the
sentinel 0 on every other response (absent, wrong prefix, no digits after
the prefix, or a non-digit payload); being a total function, it never
raises. -/
theorem get_frequency_spec :
    (∀ ds : List Char, ds ≠ [] → ds.all Char.isDigit = true →
      get_frequency (some ('F' :: 'A' :: ds)) = (natOfDigits ds : ℚ) / 1000000)
    ∧ (∀ r : Option (List Char),
      (∀ ds : List Char, r = some ('F' :: 'A' :: ds) →
        ds = [] ∨ ¬ ds.all Char.isDigit = true) →
      get_frequency r = 0) := by
  constructor
  · intro ds hne hdig
    have hl : 0 < ds.length := List.length_pos.mpr hne
    have hpre : List.isPrefixOf ['F', 'A'] ('F' :: 'A' :: ds) = true := by
      simp [List.isPrefixOf]
    have hcond : ¬ (('F' :: 'A' :: ds) = []
        ∨ List.isPrefixOf ['F', 'A'] ('F' :: 'A' :: ds) = false
        ∨ ('F' :: 'A' :: ds).length ≤ 2) := by
      push_neg
      refine ⟨by simp, by simp [hpre], ?_⟩
      simp only [List.length_cons]
      omega
    have hpd : py_isdigit ds = true := by
      have : ds.isEmpty = false := by
        cases ds with
        | nil => exact absurd rfl hne
        | cons a t => rfl
      simp [py_isdigit, this, hdig]
    simp only [get_frequency]
    rw [if_neg hcond, show ('F' :: 'A' :: ds).drop 2 = ds from rfl,
      if_neg (by simp [hpd])]
  · intro r hbad
    match r with
    | none => rfl
    | some l =>
      by_cases hp : List.isPrefixOf ['F', 'A'] l = true
      · obtain ⟨t, rfl⟩ := (startsWith2_iff 'F' 'A' l).mp hp
        rcases hbad t rfl with ht | ht
        · subst ht
          simp only [get_frequency]
          rw [if_pos (Or.inr (Or.inr (by simp)))]
        · by_cases hemp : t = []
          · subst hemp
            simp only [get_frequency]
            rw [if_pos (Or.inr (Or.inr (by simp)))]
          · have hl : 0 < t.length := List.length_pos.mpr hemp
            have hcond : ¬ (('F' :: 'A' :: t) = []
                ∨ List.isPrefixOf ['F', 'A'] ('F' :: 'A' :: t) = false
                ∨ ('F' :: 'A' :: t).length ≤ 2) := by
              push_neg
              refine ⟨by simp, by simp [hp], ?_⟩
              simp only [List.length_cons]
              omega
            have hall : t.all Char.isDigit = false :=
              Bool.eq_false_iff.mpr (fun hc => ht hc)
            simp only [get_frequency]
            rw [if_neg hcond, show ('F' :: 'A' :: t).drop 2 = t from rfl,
              if_pos (by simp [py_isdigit, hall])]
      · have hp' : List.isPrefixOf ['F', 'A'] l = false :=
          Bool.eq_false_iff.mpr (fun hc => hp hc)
        simp only [get_frequency]
        rw [if_pos (Or.inr (Or.inl hp'))]

/-- C4 witness: a well-formed response parses to its payload over `10^6`,
and a response with a non-digit payload yields the sentinel 0. -/
theorem get_frequency_spec_witness :
    get_frequency (some ('F' :: 'A' :: ['0', '1', '4', '2', '5', '0', '0', '0', '0'])) =
      (natOfDigits ['0', '1', '4', '2', '5', '0', '0', '0', '0'] : ℚ) / 1000000
    ∧ get_frequency (some ('F' :: 'A' :: ['x', 'y'])) = 0 := by
  constructor
  · exact get_frequency_spec.1 _ (by decide) (by decide)
  · refine get_frequency_spec.2 _ ?_
    intro ds h
    right
    have hds : ds = ['x', 'y'] := by
      simp only [Option.some.injEq, List.cons.injEq, true_and] at h
      exact h.symm
    subst hds
    decide

/-- C5: for every integer level, `set_rf_power` accepts (returns `True`)
and transmits exactly `max(5, min(100, level))` as a 3-digit zero-padded
payload after `PC`; when the `int()` conversion raises it returns `False`
and transmits nothing at all. -/
theorem set_rf_power_spec :
    (∀ n : ℤ, ∃ payload : List Char,
      set_rf_power (.int n) = (true, some (['P', 'C'] ++ payload))
      ∧ payload.length = 3
      ∧ payload.all Char.isDigit = true
      ∧ (natOfDigits payload : ℤ) = max 5 (min 100 n))
    ∧ (∀ v : PowerInput, tryInt v = none → set_rf_power v = (false, none)) := by
  constructor
  · intro n
    set z : ℤ := max 5 (min 100 n) with hz
    have hz5 : (5 : ℤ) ≤ z := le_max_left _ _
    have hz100 : z ≤ 100 := max_le (by norm_num) (min_le_left _ _)
    have hz0 : (0 : ℤ) ≤ z := by omega
    have hzt : z.toNat < 10 ^ 3 := by omega
    refine ⟨pyPad 3 (natDigits z.toNat), ?_, ?_, ?_, ?_⟩
    · simp only [set_rf_power, tryInt, pcCommand, pyZFill, ← hz]
      rw [if_neg (not_lt.mpr hz0)]
    · exact pyPad_length _ _ (natDigits_length _ 3 (by norm_num) hzt)
    · exact pyPad_all _ _ (natDigits_all _)
    · rw [natOfDigits_pyPad, natDigits_value, Int.toNat_of_nonneg hz0]
  · intro v hv
    simp [set_rf_power, hv]

/-- C5 witness: level 700 is clamped to 100 and transmitted; the
non-numeric input `"w"` is rejected with nothing transmitted. -/
theorem set_rf_power_spec_witness :
    (∃ payload : List Char,
      set_rf_power (.int 700) = (true, some (['P', 'C'] ++ payload))
      ∧ payload.length = 3
      ∧ payload.all Char.isDigit = true
      ∧ (natOfDigits payload : ℤ) = max 5 (min 100 700))
    ∧ set_rf_power (.str ['w']) = (false, none) :=
  ⟨set_rf_power_spec.1 700, set_rf_power_spec.2 _ (by decide)⟩

/-- On every finite value the refined run model agrees with the
finite-value model of `set_rf_power`: the refinement only adds the
non-finite-float behaviour. -/
lemma set_rf_power_run_agrees (v : PowerInput) :
    set_rf_power_run (toPyLevel v) =
      RunResult.ret (set_rf_power v).1 (set_rf_power v).2 := by
  cases v with
  | int n => rfl
  | float q => rfl
  | bool b => rfl
  | str s =>
    cases h : parseIntStr s with
    | none => simp [toPyLevel, set_rf_power_run, intOf, set_rf_power, tryInt, h]
    | some z => simp [toPyLevel, set_rf_power_run, intOf, set_rf_power, tryInt, h]
  | none_ => rfl

/-- C9 counterexample: at `float('inf')` the `int()` conversion raises
(OverflowError), yet `set_rf_power` does not reject: the
`except (TypeError, ValueError)` clause does not name OverflowError, so
the call propagates the exception instead of returning `False` — the
claimed "rejects exactly those inputs for which integer conversion
raises" fails at this input. -/
theorem set_rf_power_inf_not_rejected :
    intOf (PyLevel.float (PyFloat.inf false)) = IntConv.uncaught
    ∧ set_rf_power_run (PyLevel.float (PyFloat.inf false)) = RunResult.exn
    ∧ set_rf_power_run (PyLevel.float (PyFloat.inf false)) ≠
        RunResult.ret false none :=
  ⟨rfl, rfl, by decide⟩

/-- C9 (amended): `set_rf_power` returns `False` without transmitting
exactly for those inputs whose `int()` conversion raises an exception the
handler catches (TypeError or ValueError); for `±inf` the conversion
raises OverflowError, which is not caught, so the call propagates instead
of rejecting (still transmitting nothing).  Every convertible value is
accepted: a finite non-integer float is truncated toward zero before
clamping, a boolean is treated as 0 or 1 and then clamped up to 5
(payload `005`), and an underscore-grouped numeric string such as
`"1_0"` converts (to 10, clamped and sent as `PC010`) — so rejection
applies only to unconvertible values, not to all non-integer inputs. -/
theorem set_rf_power_reject_iff_caught :
    (∀ v : PyLevel,
      set_rf_power_run v = RunResult.ret false none ↔ intOf v = IntConv.caught)
    ∧ (∀ v : PyLevel,
      set_rf_power_run v = RunResult.exn ↔ intOf v = IntConv.uncaught)
    ∧ (∀ v : PyLevel, (∃ z : ℤ, intOf v = IntConv.ok z) →
      ∃ z : ℤ, intOf v = IntConv.ok z
        ∧ set_rf_power_run v =
            RunResult.ret true (some (pcCommand (max 5 (min 100 z)))))
    ∧ (∀ q : ℚ, set_rf_power_run (.float (.fin q)) =
        RunResult.ret true (some (pcCommand (max 5 (min 100 (ratTrunc q))))))
    ∧ (∀ b : Bool,
        set_rf_power_run (.bool b) = RunResult.ret true (some ['P', 'C', '0', '0', '5']))
    ∧ set_rf_power_run (.str ['1', '_', '0']) =
        RunResult.ret true (some ['P', 'C', '0', '1', '0']) := by
  refine ⟨?_, ?_, ?_, ?_, ?_, ?_⟩
  · intro v
    cases h : intOf v <;> simp [set_rf_power_run, h]
  · intro v
    cases h : intOf v <;> simp [set_rf_power_run, h]
  · rintro v ⟨z, hz⟩
    exact ⟨z, hz, by simp [set_rf_power_run, hz]⟩
  · intro q
    rfl
  · intro b
    cases b <;> decide
  · decide

/-- C9 witness: the integer 50 is convertible, hence accepted and
transmitted, and not rejected. -/
theorem set_rf_power_reject_iff_caught_witness :
    (set_rf_power_run (PyLevel.int 50) = RunResult.ret false none ↔
      intOf (PyLevel.int 50) = IntConv.caught)
    ∧ (∃ z : ℤ, intOf (PyLevel.int 50) = IntConv.ok z
        ∧ set_rf_power_run (PyLevel.int 50) =
            RunResult.ret true (some (pcCommand (max 5 (min 100 z))))) := by
  obtain ⟨h1, h2, h3, h4, h5, h6⟩ := set_rf_power_reject_iff_caught
  exact ⟨h1 _, h3 _ ⟨50, rfl⟩⟩

/-- C10: every numeric getter is nonnegative on every input, and with the
link disconnected (`_execute` returning `None`) each returns exactly 0. -/
theorem getters_nonneg_and_disconnected_zero :
    (∀ r : Option (List Char), 0 ≤ get_frequency r)
    ∧ (∀ r : Option (List Char),
        0 ≤ get_s_meter r ∧ 0 ≤ get_rf_power r ∧ 0 ≤ get_swr_meter r)
    ∧ (∀ raw : Option (List Char),
        get_frequency (executeResp false raw) = 0
        ∧ get_s_meter (executeResp false raw) = 0
        ∧ get_rf_power (executeResp false raw) = 0
        ∧ get_swr_meter (executeResp false raw) = 0) := by
  refine ⟨?_, ?_, ?_⟩
  · intro r
    match r with
    | none => exact le_refl 0
    | some l =>
      simp only [get_frequency]
      split
      · exact le_refl 0
      · split
        · exact le_refl 0
        · positivity
  · intro r
    exact ⟨Nat.zero_le _, Nat.zero_le _, Nat.zero_le _⟩
  · intro raw
    exact ⟨rfl, rfl, rfl, rfl⟩

/-- C7: `get_swr_meter`, `get_s_meter` and `get_rf_power` parse a
fixed-position, fixed-width 3-digit field of the response (`resp[3:6]` for
SWR, the last three characters — positions 3..5 of the expected `SM0xxx`
and 2..4 of the expected `PCxxx` shape — for the other two), and an
absent response, a response shorter than the expected minimum length, or a
non-digit field yields 0. -/
theorem meters_fixed_field_parse :
    (get_swr_meter none = 0 ∧ get_s_meter none = 0 ∧ get_rf_power none = 0)
    ∧ (∀ l : List Char, l.length < 6 →
        get_swr_meter (some l) = 0 ∧ get_s_meter (some l) = 0)
    ∧ (∀ l : List Char, l.length < 5 → get_rf_power (some l) = 0)
    ∧ (∀ l : List Char, py_isdigit ((l.drop 3).take 3) = false →
        get_swr_meter (some l) = 0)
    ∧ (∀ l : List Char, py_isdigit (lastN 3 l) = false →
        get_s_meter (some l) = 0 ∧ get_rf_power (some l) = 0)
    ∧ (∀ l : List Char, 6 ≤ l.length → py_isdigit ((l.drop 3).take 3) = true →
        get_swr_meter (some l) = natOfDigits ((l.drop 3).take 3))
    ∧ (∀ l : List Char, List.isPrefixOf ['S', 'M'] l = true → 6 ≤ l.length →
        py_isdigit (lastN 3 l) = true →
        get_s_meter (some l) = natOfDigits (lastN 3 l))
    ∧ (∀ l : List Char, List.isPrefixOf ['P', 'C'] l = true → 5 ≤ l.length →
        py_isdigit (lastN 3 l) = true →
        get_rf_power (some l) = natOfDigits (lastN 3 l)) := by
  refine ⟨⟨rfl, rfl, rfl⟩, ?_, ?_, ?_, ?_, ?_, ?_, ?_⟩
  · intro l hlen
    constructor
    · simp only [get_swr_meter]
      rw [if_neg (fun hc => absurd hc.2.1 (by omega))]
    · by_cases hnil : l = []
      · simp [get_s_meter, hnil]
      · simp only [get_s_meter]
        rw [if_neg hnil, if_neg (fun hc => absurd hc.2 (by omega))]
  · intro l hlen
    by_cases hnil : l = []
    · simp [get_rf_power, hnil]
    · simp only [get_rf_power]
      rw [if_neg hnil, if_neg (fun hc => absurd hc.2 (by omega))]
  · intro l hnd
    simp only [get_swr_meter]
    rw [if_neg (fun hc => by rw [hnd] at hc; exact absurd hc.2.2 (by simp))]
  · intro l hnd
    by_cases hnil : l = []
    · simp [get_s_meter, get_rf_power, hnil]
    · constructor
      · simp only [get_s_meter]
        rw [if_neg hnil]
        split
        · rw [if_neg (by simp [hnd])]
        · rfl
      · simp only [get_rf_power]
        rw [if_neg hnil]
        split
        · rw [if_neg (by simp [hnd])]
        · rfl
  · intro l hlen hdig
    have hnil : l ≠ [] := by
      intro h
      subst h
      simp at hlen
    simp only [get_swr_meter]
    rw [if_pos ⟨hnil, hlen, hdig⟩]
  · intro l hpre hlen hdig
    have hnil : l ≠ [] := by
      intro h
      subst h
      simp at hlen
    simp only [get_s_meter]
    rw [if_neg hnil, if_pos ⟨hpre, hlen⟩, if_pos hdig]
  · intro l hpre hlen hdig
    have hnil : l ≠ [] := by
      intro h
      subst h
      simp at hlen
    simp only [get_rf_power]
    rw [if_neg hnil, if_pos ⟨hpre, hlen⟩, if_pos hdig]

/-- C7 witness: a well-formed `PCxxx` response parses to its 3-digit
field, a short response yields 0, and a well-formed `SM0xxx` response
parses to its 3-digit field. -/
theorem meters_fixed_field_parse_witness :
    get_rf_power (some ['P', 'C', '0', '5', '0']) =
      natOfDigits (lastN 3 ['P', 'C', '0', '5', '0'])
    ∧ get_swr_meter (some ['R', 'M']) = 0
    ∧ get_s_meter (some ['S', 'M', '0', '1', '2', '3']) =
      natOfDigits (lastN 3 ['S', 'M', '0', '1', '2', '3']) := by
  obtain ⟨h0, hshort, hpcshort, hswrnd, hsmnd, hswr, hsm, hpc⟩ := meters_fixed_field_parse
  exact ⟨hpc _ (by decide) (by decide) (by decide),
    (hshort _ (by decide)).1,
    hsm _ (by decide) (by decide) (by decide)⟩

/-- C6 counterexample: the enumerated label `CW` does not round-trip.
`set_mode "CW"` transmits the code `3` (command `MD03`), but `get_mode` on
a response carrying that same code returns `CW-U`, not `CW`. -/
theorem set_get_mode_cw_roundtrip_fails :
    set_mode (some ['C', 'W']) = some ['M', 'D', '0', '3']
    ∧ get_mode (some ['M', 'D', '0', '3']) none = some ['C', 'W', '-', 'U']
    ∧ get_mode (some ['M', 'D', '0', '3']) none ≠ some ['C', 'W'] :=
  ⟨by decide, by decide, by decide⟩

/-- C6 (amended): the `set_mode` label/code table is injective in both
directions (a bijection onto its codes); every enumerated label except
`CW` round-trips through `get_mode`, while `CW` transmits code `3` and
reads back as `CW-U`; an unrecognized label transmits nothing; and an
unknown trailing code yields `none` ("no mode known"), distinct from every
valid label. -/
theorem mode_codec_spec :
    (∀ label ∈ ([['L', 'S', 'B'], ['U', 'S', 'B'], ['F', 'M'], ['A', 'M'],
        ['C', '4', 'F', 'M']] : List (List Char)),
      ∃ c : Char, set_mode (some label) = some ['M', 'D', '0', c]
        ∧ get_mode (some ['M', 'D', '0', c]) none = some label)
    ∧ (set_mode (some ['C', 'W']) = some ['M', 'D', '0', '3']
       ∧ get_mode (some ['M', 'D', '0', '3']) none = some ['C', 'W', '-', 'U'])
    ∧ ((modes.map Prod.fst).Nodup ∧ (modes.map Prod.snd).Nodup)
    ∧ (∀ label : Option (List Char),
        pyUpper (pyStrip (label.getD [])) ∉ modes.map Prod.fst →
        set_mode label = none)
    ∧ (∀ c : Char, Char.toUpper c ∉ code_to_mode.map Prod.fst →
        get_mode (some ['M', 'D', '0', c]) none = none) := by
  refine ⟨?_, ⟨by decide, by decide⟩, ⟨by decide, by decide⟩, ?_, ?_⟩
  · intro label hmem
    fin_cases hmem
    · exact ⟨'1', by decide, by decide⟩
    · exact ⟨'2', by decide, by decide⟩
    · exact ⟨'4', by decide, by decide⟩
    · exact ⟨'5', by decide, by decide⟩
    · exact ⟨'E', by decide, by decide⟩
  · intro label hmem
    have hlk := lookup_eq_none_of_not_mem (pyUpper (pyStrip (label.getD []))) modes hmem
    simp [set_mode, hlk]
  · intro c hc
    have hlk := lookup_eq_none_of_not_mem (Char.toUpper c) code_to_mode hc
    simp [get_mode, firstTruthy, List.isPrefixOf, hlk]

/-- C6 witness: `LSB` round-trips through the codec, and the unrecognized
label `ZZ` is a silent no-op. -/
theorem mode_codec_spec_witness :
    (∃ c : Char, set_mode (some ['L', 'S', 'B']) = some ['M', 'D', '0', c]
      ∧ get_mode (some ['M', 'D', '0', c]) none = some ['L', 'S', 'B'])
    ∧ set_mode (some ['Z', 'Z']) = none := by
  obtain ⟨hrt, hcw, hnd, hnoop, hunk⟩ := mode_codec_spec
  exact ⟨hrt _ (by simp), hnoop (some ['Z', 'Z']) (by decide)⟩

/-- The clamped frequency always lies inside `[start, stop]` when the band
is well-formed. -/
lemma clampF_mem_band (plan : BandPlan) (h : plan.start ≤ plan.stop) (f : ℚ) :
    plan.start ≤ clampF plan f ∧ clampF plan f ≤ plan.stop := by
  unfold clampF
  split
  · exact ⟨le_refl _, h⟩
  · next hcond =>
    push_neg at hcond
    exact hcond

/-- Every frequency commanded inside the scan loop is the clamped value of
that iteration, hence in band. -/
lemma scanLoop_setFreq_mem (plan : BandPlan) (thresh : ℕ)
    (h : plan.start ≤ plan.stop) :
    ∀ (envs : List ScanEnv) (f x : ℚ),
      Event.setFreq x ∈ scanLoop plan thresh f envs →
      plan.start ≤ x ∧ x ≤ plan.stop := by
  intro envs
  induction envs with
  | nil =>
    intro f x hx
    simp [scanLoop] at hx
  | cons e rest ih =>
    intro f x hx
    rw [scanLoop] at hx
    by_cases h1 : e.scanningNow = false
    · rw [if_pos h1] at hx
      simp at hx
    · rw [if_neg h1] at hx
      by_cases h2 : e.connected = false
      · rw [if_pos h2] at hx
        simp at hx
      · rw [if_neg h2] at hx
        rcases List.mem_cons.mp hx with heq | htail
        · obtain rfl : x = clampF plan f := by injection heq
          exact clampF_mem_band plan h f
        · by_cases h3 : thresh ≤ e.sMeter
          · rw [if_pos h3] at htail
            rcases List.mem_cons.mp htail with heq2 | htail2
            · exact absurd heq2 (by simp)
            · exact ih _ _ htail2
          · rw [if_neg h3] at htail
            exact ih _ _ htail

/-- The final `ptt_state True` event is on every path of the scan loop. -/
lemma scanLoop_ptt_mem (plan : BandPlan) (thresh : ℕ) :
    ∀ (envs : List ScanEnv) (f : ℚ),
      Event.pttEnabled true ∈ scanLoop plan thresh f envs := by
  intro envs
  induction envs with
  | nil =>
    intro f
    simp [scanLoop]
  | cons e rest ih =>
    intro f
    rw [scanLoop]
    by_cases h1 : e.scanningNow = false
    · rw [if_pos h1]
      simp
    · rw [if_neg h1]
      by_cases h2 : e.connected = false
      · rw [if_pos h2]
        simp
      · rw [if_neg h2]
        by_cases h3 : thresh ≤ e.sMeter
        · rw [if_pos h3]
          exact List.mem_cons_of_mem _ (List.mem_cons_of_mem _ (ih _))
        · rw [if_neg h3]
          exact List.mem_cons_of_mem _ (ih _)

/-- When the loop observes a dead link, the trace ends with the
disconnected status immediately followed by the PTT re-enable event. -/
lemma scanLoop_disconnect_suffix (plan : BandPlan) (thresh : ℕ) :
    ∀ (envs : List ScanEnv) (f : ℚ),
      Event.statusDisconnected ∈ scanLoop plan thresh f envs →
      ∃ pre, scanLoop plan thresh f envs =
        pre ++ [Event.statusDisconnected, Event.pttEnabled true] := by
  intro envs
  induction envs with
  | nil =>
    intro f h
    simp [scanLoop] at h
  | cons e rest ih =>
    intro f h
    rw [scanLoop] at h ⊢
    by_cases h1 : e.scanningNow = false
    · rw [if_pos h1] at h
      simp at h
    · rw [if_neg h1] at h ⊢
      by_cases h2 : e.connected = false
      · rw [if_pos h2] at h ⊢
        exact ⟨[], rfl⟩
      · rw [if_neg h2] at h ⊢
        by_cases h3 : thresh ≤ e.sMeter
        · rw [if_pos h3] at h ⊢
          have hrec : Event.statusDisconnected ∈
              scanLoop plan thresh (clampF plan f + plan.step) rest := by
            rcases List.mem_cons.mp h with h' | h'
            · exact absurd h' (by simp)
            · rcases List.mem_cons.mp h' with h'' | h''
              · exact absurd h'' (by simp)
              · exact h''
          obtain ⟨pre, hpre⟩ := ih _ hrec
          refine ⟨Event.setFreq (clampF plan f) ::
            Event.logged (clampF plan f) e.sMeter :: pre, ?_⟩
          rw [hpre]
          rfl
        · rw [if_neg h3] at h ⊢
          have hrec : Event.statusDisconnected ∈
              scanLoop plan thresh (clampF plan f + plan.step) rest := by
            rcases List.mem_cons.mp h with h' | h'
            · exact absurd h' (by simp)
            · exact h'
          obtain ⟨pre, hpre⟩ := ih _ hrec
          refine ⟨Event.setFreq (clampF plan f) :: pre, ?_⟩
          rw [hpre]
          rfl

/-- C2: every band plan in `BANDS` is well-formed, and for every band
plan, starting frequency, squelch threshold, and any number of scan-loop
iterations, every frequency the scan thread commands lies in
`[band.start, band.end]` — the top-of-iteration clamp (wrapping to
`band.start`) runs before every frequency command. -/
theorem scanner_stays_in_band :
    (∀ nb ∈ BANDS, nb.2.start ≤ nb.2.stop ∧ 0 < nb.2.step)
    ∧ (∀ (plan : BandPlan) (thresh : ℕ) (f0 : ℚ) (envs : List ScanEnv) (x : ℚ),
        plan.start ≤ plan.stop →
        Event.setFreq x ∈ scan_thread (some plan) thresh f0 envs →
        plan.start ≤ x ∧ x ≤ plan.stop) := by
  constructor
  · intro nb hnb
    fin_cases hnb <;> constructor <;> norm_num [BANDS]
  · intro plan thresh f0 envs x h hx
    simp only [scan_thread] at hx
    by_cases hstep : plan.step ≤ 0
    · rw [if_pos hstep] at hx
      simp at hx
    · rw [if_neg hstep] at hx
      exact scanLoop_setFreq_mem plan thresh h envs _ x hx

/-- C2 witness: on the 2m band plan, started from 200 MHz (out of band),
the first commanded frequency is the wrapped band start 144, in band. -/
theorem scanner_stays_in_band_witness :
    ((144 : ℚ) ≤ 148)
    ∧ Event.setFreq 144 ∈
        scan_thread (some ⟨144, 148, 0.015, ['F', 'M']⟩) 40 200 [⟨true, true, 0⟩]
    ∧ ((144 : ℚ) ≤ 144 ∧ (144 : ℚ) ≤ 148) := by
  have hmem : Event.setFreq 144 ∈
      scan_thread (some ⟨144, 148, 0.015, ['F', 'M']⟩) 40 200 [⟨true, true, 0⟩] := by
    norm_num [scan_thread, scanLoop, clampF]
  refine ⟨by norm_num, hmem, ?_⟩
  have h := scanner_stays_in_band.2 ⟨144, 148, 0.015, ['F', 'M']⟩ 40 200
    [⟨true, true, 0⟩] 144 (by norm_num) hmem
  exact h

/-- C8: on every exit path of `scan_thread` (explicit stop, disconnect,
invalid-band abort, invalid-step abort) the transmit-re-enable event
`("ptt_state", True)` is emitted; and whenever the disconnected status is
emitted (only possible on the mid-scan disconnect path), the trace ends
with that status event immediately followed by the re-enable event, in
that causal order — in particular the loop terminates there. -/
theorem scan_exit_reenables_ptt :
    (∀ (plan? : Option BandPlan) (thresh : ℕ) (f0 : ℚ) (envs : List ScanEnv),
      Event.pttEnabled true ∈ scan_thread plan? thresh f0 envs)
    ∧ (∀ (plan? : Option BandPlan) (thresh : ℕ) (f0 : ℚ) (envs : List ScanEnv),
      Event.statusDisconnected ∈ scan_thread plan? thresh f0 envs →
      ∃ pre, scan_thread plan? thresh f0 envs =
        pre ++ [Event.statusDisconnected, Event.pttEnabled true]) := by
  constructor
  · intro plan? thresh f0 envs
    match plan? with
    | none => simp [scan_thread]
    | some plan =>
      simp only [scan_thread]
      by_cases hstep : plan.step ≤ 0
      · rw [if_pos hstep]
        simp
      · rw [if_neg hstep]
        exact scanLoop_ptt_mem plan thresh envs _
  · intro plan? thresh f0 envs h
    match plan? with
    | none =>
      simp [scan_thread] at h
    | some plan =>
      simp only [scan_thread] at h ⊢
      by_cases hstep : plan.step ≤ 0
      · rw [if_pos hstep] at h
        simp at h
      · rw [if_neg hstep] at h ⊢
        exact scanLoop_disconnect_suffix plan thresh envs _ h

/-- C8 witness: a mid-scan disconnect on the 2m band produces exactly the
disconnected status followed by the PTT re-enable event. -/
theorem scan_exit_reenables_ptt_witness :
    Event.statusDisconnected ∈
      scan_thread (some ⟨144, 148, 0.015, ['F', 'M']⟩) 40 144 [⟨true, false, 0⟩]
    ∧ ∃ pre, scan_thread (some ⟨144, 148, 0.015, ['F', 'M']⟩) 40 144 [⟨true, false, 0⟩] =
        pre ++ [Event.statusDisconnected, Event.pttEnabled true] := by
  have hmem : Event.statusDisconnected ∈
      scan_thread (some ⟨144, 148, 0.015, ['F', 'M']⟩) 40 144 [⟨true, false, 0⟩] := by
    norm_num [scan_thread, scanLoop, clampF]
  exact ⟨hmem, scan_exit_reenables_ptt.2 _ 40 144 _ hmem⟩

/-- C3: the unguarded boolean read-then-act race is reachable.  From the
initial state there is an interleaving in which the poll thread evaluates
`if self.scanning:` as false (main.py line 348), `toggle_scan` then sets
`self.scanning = True` and spawns the scan thread, the scan thread issues
a CAT command (line 514), and the poll thread — past its stale check —
issues its own CAT command (lines 357-370) while the scan is active.  The
final state has a scan session live and a poll command on the wire after a
scanner command, contradicting the claimed enforced exclusion. -/
theorem poll_commands_during_active_scan :
    ∃ s : RaceState,
      Relation.ReflTransGen RaceStep RaceInit s
      ∧ s.scanning = true ∧ s.scanActive = true
      ∧ s.wire = [Cmd.scanCmd, Cmd.pollCmd] := by
  refine ⟨⟨true, true, false, [Cmd.scanCmd, Cmd.pollCmd]⟩, ?_, rfl, rfl, rfl⟩
  have h1 : RaceStep RaceInit ⟨false, false, true, []⟩ :=
    RaceStep.pollObserve RaceInit rfl
  have h2 : RaceStep ⟨false, false, true, []⟩ ⟨true, true, true, []⟩ :=
    RaceStep.uiStartScan _ rfl
  have h3 : RaceStep ⟨true, true, true, []⟩ ⟨true, true, true, [Cmd.scanCmd]⟩ :=
    RaceStep.scanIssue _ rfl rfl
  have h4 : RaceStep ⟨true, true, true, [Cmd.scanCmd]⟩
      ⟨true, true, false, [Cmd.scanCmd, Cmd.pollCmd]⟩ :=
    RaceStep.pollIssue _ rfl
  exact Relation.ReflTransGen.head h1 (Relation.ReflTransGen.head h2
    (Relation.ReflTransGen.head h3 (Relation.ReflTransGen.single h4)))

end VaDER
